import Mathlib

/-!
Verification of the natural-language specification of `Web-Scrapping.py`
against a shallow embedding of the script.

Modelling conventions:
- Python strings are `List Char`; `str.lower` is modelled by mapping
  `Char.toLower` (faithful on the ASCII range the script handles);
  `str.strip` drops the ASCII whitespace characters Python strips.
- The pandas DataFrame built at line 70 is a header list plus a list of
  rows, each row a list of cell strings; `df[name_col]` with `name_col =
  df.columns[0]` is the first cell of each row (column names are unique,
  per the table's data model).
- `re.escape` / `re.search` (used through `Series.str.contains`) are
  embedded as an executable pattern parser and backtracking matcher over
  the fragment of Python regex syntax the script can produce: literals,
  escaped literals, `.`, `*` and `$`; the remaining metacharacters make
  the parser fail, matching the fact that `re` treats them as syntax
  rather than text.
- Fallible Python actions (HTTP fetch, file writes, the speech engine)
  are passed in as `Except PyErr Unit` values describing whether the
  action raises, and the embedded control flow mirrors the script's
  `try`/`except` blocks.
-/

namespace WebScrap

/-- A Python exception value (only its message matters here). -/
structure PyErr where
  msg : List Char
deriving DecidableEq

/-! ### String primitives -/

/-- Python `str.lower`, modelled on the ASCII range. -/
def pyLower (s : List Char) : List Char := s.map Char.toLower

/-- The whitespace characters Python `str.strip` removes (ASCII fragment). -/
def isPySpace (c : Char) : Bool :=
  c == ' ' || c == '\t' || c == '\n' || c == '\x0d' || c == '\x0b' || c == '\x0c'

/-- Python `str.strip()`: drop leading and trailing whitespace. -/
def pyStrip (s : List Char) : List Char :=
  ((s.dropWhile isPySpace).reverse.dropWhile isPySpace).reverse

/-- Boolean test that `p` starts the list `s`. -/
def isPrefixL : List Char → List Char → Bool
  | [], _ => true
  | _ :: _, [] => false
  | a :: p, b :: s => a == b && isPrefixL p s

/-- Boolean test that `p` occurs contiguously somewhere in `s`
(plain substring containment). -/
def containsSub : List Char → List Char → Bool
  | p, [] => isPrefixL p []
  | p, c :: s => isPrefixL p (c :: s) || containsSub p s

/-- Propositional form of substring containment: `p` occurs contiguously in `s`. -/
def SubstrOf (p s : List Char) : Prop := ∃ l r, s = l ++ p ++ r

/-! ### The regex fragment reachable from the script

`Series.str.contains(pattern)` runs `re.search(pattern, cell)`; the script
always passes `re.escape(query.lower())` as the pattern. -/

/-- A single-character regex atom. -/
inductive Atom where
  | lit (c : Char)
  | dot
deriving DecidableEq

/-- One parsed pattern element: an atom, a starred atom, or the `$` anchor. -/
inductive Piece where
  | once (a : Atom)
  | star (a : Atom)
  | endAnchor
deriving DecidableEq

/-- Whether an atom matches one character (`.` matches anything but a newline,
as in Python without `re.DOTALL`). -/
def atomMatches : Atom → Char → Bool
  | Atom.lit c, x => c == x
  | Atom.dot, x => x != '\n'

/-- Metacharacters (beyond `\`, `$`, `.`, `*`) that open regex syntax the
embedded fragment does not model; an unescaped occurrence makes parsing fail. -/
def isMetaCh (c : Char) : Bool :=
  c == '*' || c == '+' || c == '?' || c == '(' || c == ')' ||
  c == '[' || c == ']' || c == '\x7b' || c == '\x7d' || c == '|' || c == '^'

/-- Parse a pattern string into pieces. `\c` is a literal for non-alphanumeric
`c` (alphanumeric escapes are character classes, out of fragment); `.` is the
any-character atom; a `*` suffixes the preceding atom; `$` is the end anchor;
other metacharacters are unsupported syntax. -/
def parsePieces : List Char → Option (List Piece)
  | [] => some []
  | c :: rest =>
    if c = '\\' then
      match rest with
      | [] => none
      | d :: rest2 =>
        if d.isAlphanum then none
        else
          match rest2 with
          | e :: rest3 =>
            if e = '*' then (parsePieces rest3).map (Piece.star (Atom.lit d) :: ·)
            else (parsePieces (e :: rest3)).map (Piece.once (Atom.lit d) :: ·)
          | [] => (parsePieces []).map (Piece.once (Atom.lit d) :: ·)
    else if c = '$' then (parsePieces rest).map (Piece.endAnchor :: ·)
    else if c = '.' then
      match rest with
      | e :: rest2 =>
        if e = '*' then (parsePieces rest2).map (Piece.star Atom.dot :: ·)
        else (parsePieces (e :: rest2)).map (Piece.once Atom.dot :: ·)
      | [] => (parsePieces []).map (Piece.once Atom.dot :: ·)
    else if isMetaCh c then none
    else
      match rest with
      | e :: rest2 =>
        if e = '*' then (parsePieces rest2).map (Piece.star (Atom.lit c) :: ·)
        else (parsePieces (e :: rest2)).map (Piece.once (Atom.lit c) :: ·)
      | [] => (parsePieces []).map (Piece.once (Atom.lit c) :: ·)

/-- Whether the pieces match some prefix of `s` (the anchored step of
`re.search`); backtracking semantics for `*`. -/
def matchPieces : List Piece → List Char → Bool
  | [], _ => true
  | Piece.endAnchor :: ps, s => s.isEmpty && matchPieces ps s
  | Piece.once _ :: _, [] => false
  | Piece.once a :: ps, c :: s => atomMatches a c && matchPieces ps s
  | Piece.star _ :: ps, [] => matchPieces ps []
  | Piece.star a :: ps, c :: s =>
    matchPieces ps (c :: s) || (atomMatches a c && matchPieces (Piece.star a :: ps) s)
termination_by ps s => (s.length, ps.length)

/-- `re.search`: try to match at every start position. -/
def searchFrom (ps : List Piece) : List Char → Bool
  | [] => matchPieces ps []
  | c :: s => matchPieces ps (c :: s) || searchFrom ps s

/-- Python `re.escape`: every character other than ASCII alphanumerics and
`_` gets a backslash (CPython ≥ 3.7 behaviour). -/
def reEscape : List Char → List Char
  | [] => []
  | c :: rest =>
    (if c.isAlphanum = true ∨ c = '_' then [c] else ['\\', c]) ++ reEscape rest

/-- `Series.str.contains(pattern)` on one cell: compile the pattern and
search the cell; an uncompilable pattern is modelled as no match (the
script never produces one, since its patterns come from `re.escape`). -/
def strContainsRe (cell pattern : List Char) : Bool :=
  match parsePieces pattern with
  | some ps => searchFrom ps cell
  | none => false

/-! ### The script itself

Lines 11–20: `speak` prints the text and then tries the TTS engine inside
`try ... except Exception: pass`. -/

/-- The `try`/`except Exception: pass` wrapper around `engine.say` /
`engine.runAndWait` (lines 15–20): a raising action is swallowed. -/
def tryExceptPass (act : Except PyErr Unit) : Except PyErr Unit :=
  match act with
  | Except.ok u => Except.ok u
  | Except.error _ => Except.ok ()

/-- The marker `print` prepends to every spoken line (line 13). -/
def speakMarker : List Char := [Char.ofNat 0x1F5E3, Char.ofNat 0xFE0F, ' ']

/-- Lines 11–20. `sayRun` is the combined outcome of `engine.say(text)` and
`engine.runAndWait()` (raising or returning). The result is the list of
printed lines and the exception, if any, that `speak` lets escape. -/
def speak (sayRun : Except PyErr Unit) (text : List Char) :
    List (List Char) × Except PyErr Unit :=
  ([speakMarker ++ text], tryExceptPass sayRun)

/-! ### Fetcher (lines 27–34) -/

/-- What `requests.get` produced: a response with a status code and body,
or a raised `requests.exceptions.RequestException` (connection error,
timeout, and the like). -/
inductive FetchResult where
  | response (status : Nat) (body : List Char)
  | requestError (e : PyErr)
deriving DecidableEq

/-- How the fetch block leaves the program: carry on with a body, or
`exit(code)`. -/
inductive FetchOutcome where
  | proceed (body : List Char)
  | exitWith (code : Nat)
deriving DecidableEq

/-- `Response.raise_for_status()` raises `HTTPError` exactly for
4xx and 5xx status codes (400 ≤ status < 600). -/
def raiseForStatusFails (status : Nat) : Bool :=
  400 ≤ status && status < 600

/-- Lines 27–34: `requests.get` then `raise_for_status` inside `try`;
`except requests.exceptions.RequestException` speaks a diagnostic and calls
`exit(1)`. `HTTPError` is a `RequestException`, so a raising
`raise_for_status` lands in the same handler. One attempt only; no retry. -/
def fetchStep : FetchResult → FetchOutcome
  | FetchResult.requestError _ => FetchOutcome.exitWith 1
  | FetchResult.response st body =>
    if raiseForStatusFails st then FetchOutcome.exitWith 1
    else FetchOutcome.proceed body

/-! ### Table extraction (lines 46–70, 89) -/

/-- One cell of a parsed `<tr>`: a `<th>` or `<td>` element with its text. -/
structure HtmlCell where
  isHeader : Bool
  text : List Char
deriving DecidableEq

/-- Line 50: the stripped text of the `<th>` elements of a row, in document
order. -/
def headerCells (tr : List HtmlCell) : List (List Char) :=
  (tr.filter (fun c => c.isHeader)).map (fun c => pyStrip c.text)

/-- Lines 60–61: `row.find_all(["td", "th"])` — every cell of the row,
whatever its tag, stripped. -/
def allCells (tr : List HtmlCell) : List (List Char) :=
  tr.map (fun c => pyStrip c.text)

/-- Lines 56–66: keep each subsequent row only when it has at least as many
cells as there are headers, truncated to the header count. -/
def extractRows (headers : List (List Char)) (raw : List (List (List Char))) :
    List (List (List Char)) :=
  raw.filterMap (fun cols =>
    if headers.length ≤ cols.length then some (cols.take headers.length) else none)

/-- The two ways table loading can abort the process. -/
inductive LoadFailure where
  /-- Lines 48–53: `table.find_all("tr")[0]` raised `IndexError` (the table
  has no rows); caught, a diagnostic is spoken, then `exit(1)`. -/
  | emptyTable
  /-- Line 89: the header list was empty, so `df.columns[0]` raises an
  uncaught `IndexError`; the interpreter prints a traceback and the process
  exits with status 1. -/
  | noColumns
deriving DecidableEq

/-- The process exit status each load failure produces (1 in both cases:
the explicit `exit(1)`, and CPython's status for an uncaught exception). -/
def LoadFailure.exitCode : LoadFailure → Nat
  | _ => 1

/-- Lines 46–70 and 89: from the parsed `<tr>` elements of the table, read
the headers from the first row, normalize the remaining rows, and designate
`df.columns[0]` as the search column; the result is
`(headers, rows, name_col)` or the failure that aborts the process. -/
def loadTable (trs : List (List HtmlCell)) :
    Except LoadFailure (List (List Char) × List (List (List Char)) × List Char) :=
  match trs with
  | [] => Except.error LoadFailure.emptyTable
  | tr0 :: rest =>
    let headers := headerCells tr0
    let rows := extractRows headers (rest.map allCells)
    match headers with
    | [] => Except.error LoadFailure.noColumns
    | h0 :: _ => Except.ok (headers, rows, h0)

/-! ### Export block (lines 79–84) -/

/-- Observable events of the export block, in order of occurrence. -/
inductive ExportEvent where
  /-- `df.to_csv("military_personnel_data.csv", index=False)` was attempted. -/
  | csvWrite
  /-- `df.to_excel("military_personnel_data.xlsx", index=False)` was attempted. -/
  | excelWrite
  /-- The success message was spoken (line 82). -/
  | successMsg
  /-- The warning message of the `except` handler was spoken (line 84). -/
  | warnMsg
deriving DecidableEq

/-- Run a `try` body made of a sequence of fallible actions: actions run in
order until one raises; the raiser is still recorded as attempted, and the
actions after it never run. Returns the attempted events and the exception. -/
def runTry : List (ExportEvent × Except PyErr Unit) → List ExportEvent × Option PyErr
  | [] => ([], none)
  | (ev, act) :: rest =>
    match act with
    | Except.error e => ([ev], some e)
    | Except.ok _ =>
      let out := runTry rest
      (ev :: out.1, out.2)

/-- Lines 79–84: both writes share one `try`; any exception falls to a single
`except Exception` that speaks a warning, and the program continues either
way (the `Bool` component: `true` = execution carries on past the block). -/
def exportBlock (csvAct excelAct : Except PyErr Unit) : List ExportEvent × Bool :=
  let out := runTry [(ExportEvent.csvWrite, csvAct), (ExportEvent.excelWrite, excelAct)]
  match out.2 with
  | some _ => (out.1 ++ [ExportEvent.warnMsg], true)
  | none => (out.1 ++ [ExportEvent.successMsg], true)

/-! ### Search loop (lines 92–129) -/

/-- The sentinel the loop compares against (line 95). -/
def exitWord : List Char := ['e', 'x', 'i', 't']

/-- What one loop iteration does with the raw line read from the user. -/
inductive LoopAction where
  /-- Line 97: `break` out of the loop; no search is run on this input. -/
  | terminate
  /-- Line 101: `continue`; re-prompt without searching. -/
  | reprompt
  /-- Fall through to the filter with the stripped input as the query. -/
  | search (q : List Char)
deriving DecidableEq

/-- Lines 93–101: strip the input, `break` when its lowercase form is
`"exit"`, `continue` when it is empty, otherwise search with it. -/
def loopStep (raw : List Char) : LoopAction :=
  let s := pyStrip raw
  if pyLower s = exitWord then LoopAction.terminate
  else if s = [] then LoopAction.reprompt
  else LoopAction.search s

/-- Lines 105–108 applied to one row: `df[name_col].str.lower()
.str.contains(re.escape(search.lower()), na=False)`. The row's entry in the
search column is its first cell (`name_col = df.columns[0]`, column names
unique). All cells are strings, so the `na=False` branch never fires. -/
def rowMatches (query : List Char) (row : List (List Char)) : Bool :=
  strContainsRe (pyLower (row.headD [])) (reEscape (pyLower query))

/-- Line 108 precisely: keep the rows whose lowered first cell has a
`re.search` hit for the escaped lowered query. -/
def searchFilter (df : List (List (List Char))) (query : List Char) :
    List (List (List Char)) :=
  df.filter (fun row => rowMatches query row)

/-! ### Session state across queries (claim about non-mutation)

After line 70 the script never assigns `df` again: each iteration only
reads it (`df[...]` boolean indexing builds a new frame). The loop is
modelled as a state machine whose state is the base table. -/

/-- One query iteration: the base table is only read (line 108 builds
`result` as a fresh frame; the script has no other write to `df`), so the
state after the iteration is the state before it, alongside the derived
view handed to the display code. -/
def processQuery (table : List (List (List Char))) (q : List Char) :
    List (List (List Char)) × List (List (List Char)) :=
  (table, searchFilter table q)

/-- Run a whole sequence of queries, threading the table state and
collecting the derived views in order. -/
def processQueries (table : List (List (List Char))) :
    List (List Char) → List (List (List Char)) × List (List (List (List Char)))
  | [] => (table, [])
  | q :: qs =>
    let step := processQuery table q
    let rest := processQueries step.1 qs
    (rest.1, step.2 :: rest.2)

/-! ### Substring lemmas -/

theorem isPrefixL_iff (p s : List Char) :
    isPrefixL p s = true ↔ ∃ t, s = p ++ t := by
  induction p generalizing s with
  | nil => simp [isPrefixL]
  | cons a p ih =>
    cases s with
    | nil => simp [isPrefixL]
    | cons b s =>
      simp only [isPrefixL, Bool.and_eq_true, beq_iff_eq, ih, List.cons_append,
        List.cons.injEq]
      constructor
      · rintro ⟨rfl, t, rfl⟩; exact ⟨t, rfl, rfl⟩
      · rintro ⟨t, rfl, rfl⟩; exact ⟨rfl, t, rfl⟩

theorem substrOf_cons (p : List Char) (c : Char) (s : List Char) :
    SubstrOf p (c :: s) ↔ (∃ t, c :: s = p ++ t) ∨ SubstrOf p s := by
  constructor
  · rintro ⟨l, r, h⟩
    cases l with
    | nil => exact Or.inl ⟨r, by simpa using h⟩
    | cons x l =>
      simp only [List.cons_append, List.cons.injEq] at h
      exact Or.inr ⟨l, r, h.2⟩
  · rintro (⟨t, h⟩ | ⟨l, r, h⟩)
    · exact ⟨[], t, by simpa using h⟩
    · exact ⟨c :: l, r, by simp [h]⟩

theorem containsSub_iff (p s : List Char) :
    containsSub p s = true ↔ SubstrOf p s := by
  induction s with
  | nil =>
    simp only [containsSub, isPrefixL_iff, SubstrOf]
    constructor
    · rintro ⟨t, h⟩
      rcases List.append_eq_nil.mp h.symm with ⟨rfl, rfl⟩
      exact ⟨[], [], rfl⟩
    · rintro ⟨l, r, h⟩
      rcases List.append_eq_nil.mp h.symm with ⟨h1, rfl⟩
      rcases List.append_eq_nil.mp h1 with ⟨rfl, rfl⟩
      exact ⟨[], rfl⟩
  | cons c s ih =>
    simp only [containsSub, Bool.or_eq_true, isPrefixL_iff, ih, substrOf_cons]

theorem substrOf_self (s : List Char) : SubstrOf s s :=
  ⟨[], [], by simp⟩

theorem substrOf_map (f : Char → Char) {p s : List Char} (h : SubstrOf p s) :
    SubstrOf (p.map f) (s.map f) := by
  rcases h with ⟨l, r, rfl⟩
  exact ⟨l.map f, r.map f, by simp⟩

/-! ### The escaped patterns the script builds are literal substring tests -/

/-- An alphanumeric character differs from any non-alphanumeric one. -/
theorem alnum_ne (c x : Char) (h : c.isAlphanum = true) (hx : x.isAlphanum = false) :
    c ≠ x := by
  intro he
  rw [he] at h
  exact Bool.noConfusion (h.symm.trans hx)

/-- Alphanumeric characters are not in the unsupported-metacharacter set. -/
theorem isMetaCh_of_alnum (c : Char) (h : c.isAlphanum = true) : isMetaCh c = false := by
  have hne : ∀ x : Char, x.isAlphanum = false → (c == x) = false := fun x hx =>
    beq_eq_false_iff_ne.mpr (alnum_ne c x h hx)
  simp only [isMetaCh, hne '*' (by decide), hne '+' (by decide), hne '?' (by decide),
    hne '(' (by decide), hne ')' (by decide), hne '[' (by decide), hne ']' (by decide),
    hne '\x7b' (by decide), hne '\x7d' (by decide), hne '|' (by decide),
    hne '^' (by decide), Bool.or_false]

/-- Characters `re.escape` leaves bare are not regex-special. -/
theorem escExempt_not_special (c : Char) (h : c.isAlphanum = true ∨ c = '_') :
    c ≠ '\\' ∧ c ≠ '$' ∧ c ≠ '.' ∧ c ≠ '*' ∧ isMetaCh c = false := by
  rcases h with h | rfl
  · exact ⟨alnum_ne c '\\' h (by decide), alnum_ne c '$' h (by decide),
      alnum_ne c '.' h (by decide), alnum_ne c '*' h (by decide),
      isMetaCh_of_alnum c h⟩
  · exact ⟨by decide, by decide, by decide, by decide, by decide⟩

/-- An escaped pattern never starts with `*`. -/
theorem reEscape_head_ne_star (q : List Char) (e : Char) (t : List Char)
    (h : reEscape q = e :: t) : e ≠ '*' := by
  cases q with
  | nil => simp [reEscape] at h
  | cons c q =>
    by_cases hc : c.isAlphanum = true ∨ c = '_'
    · rw [reEscape, if_pos hc] at h
      simp only [List.cons_append, List.nil_append, List.cons.injEq] at h
      rcases h with ⟨rfl, -⟩
      exact (escExempt_not_special c hc).2.2.2.1
    · rw [reEscape, if_neg hc] at h
      simp only [List.cons_append, List.nil_append, List.cons.injEq] at h
      rcases h with ⟨rfl, -⟩
      decide

/-- The pieces of a fully-literal pattern. -/
def litPieces (q : List Char) : List Piece :=
  q.map (fun c => Piece.once (Atom.lit c))

/-- Parsing step: an ordinary (non-special) character not followed by `*`
contributes one literal piece. -/
theorem parsePieces_cons_plain (c : Char) (rest : List Char)
    (h1 : c ≠ '\\') (h2 : c ≠ '$') (h3 : c ≠ '.') (h5 : isMetaCh c = false)
    (hstar : ∀ t, rest ≠ '*' :: t) :
    parsePieces (c :: rest) = (parsePieces rest).map (Piece.once (Atom.lit c) :: ·) := by
  cases rest with
  | nil => rw [parsePieces.eq_def]; simp [h1, h2, h3, h5, parsePieces]
  | cons e t =>
    have he : e ≠ '*' := fun h => hstar t (by rw [h])
    rw [parsePieces.eq_def]
    simp [h1, h2, h3, h5, he]

/-- Parsing step: a backslash-escaped non-alphanumeric character not
followed by `*` contributes one literal piece. -/
theorem parsePieces_cons_escaped (c : Char) (rest : List Char)
    (hna : c.isAlphanum = false) (hstar : ∀ t, rest ≠ '*' :: t) :
    parsePieces ('\\' :: c :: rest) =
      (parsePieces rest).map (Piece.once (Atom.lit c) :: ·) := by
  cases rest with
  | nil => rw [parsePieces.eq_def]; simp [hna, parsePieces]
  | cons e t =>
    have he : e ≠ '*' := fun h => hstar t (by rw [h])
    rw [parsePieces.eq_def]
    simp [hna, he]

/-- Parsing an escaped pattern always succeeds and yields one literal piece
per character of the original string: escaping leaves no metacharacter with
its syntactic role. -/
theorem parsePieces_reEscape (q : List Char) :
    parsePieces (reEscape q) = some (litPieces q) := by
  induction q with
  | nil => rw [reEscape, parsePieces.eq_def]; simp [litPieces]
  | cons c q ih =>
    have hstar : ∀ t, reEscape q ≠ '*' :: t := fun t h =>
      reEscape_head_ne_star q '*' t h rfl
    by_cases hc : c.isAlphanum = true ∨ c = '_'
    · obtain ⟨h1, h2, h3, h4, h5⟩ := escExempt_not_special c hc
      rw [reEscape, if_pos hc]
      simp only [List.singleton_append]
      rw [parsePieces_cons_plain c (reEscape q) h1 h2 h3 h5 hstar, ih]
      rfl
    · have hna : c.isAlphanum = false := by
        cases hcc : c.isAlphanum
        · rfl
        · exact absurd (Or.inl hcc) hc
      rw [reEscape, if_neg hc]
      simp only [List.cons_append, List.nil_append]
      rw [parsePieces_cons_escaped c (reEscape q) hna hstar, ih]
      rfl

/-- On literal pieces the anchored matcher is exactly the prefix test. -/
theorem matchPieces_litPieces (q s : List Char) :
    matchPieces (litPieces q) s = isPrefixL q s := by
  induction q generalizing s with
  | nil => cases s <;> simp [litPieces, matchPieces, isPrefixL]
  | cons c q ih =>
    cases s with
    | nil => simp [litPieces, matchPieces, isPrefixL]
    | cons b s =>
      have h := ih s
      simp only [litPieces] at h ⊢
      simp [matchPieces, isPrefixL, atomMatches, h]

/-- On literal pieces `re.search` is exactly substring containment. -/
theorem searchFrom_litPieces (q s : List Char) :
    searchFrom (litPieces q) s = containsSub q s := by
  induction s with
  | nil => simp [searchFrom, containsSub, matchPieces_litPieces]
  | cons c s ih => simp [searchFrom, containsSub, matchPieces_litPieces, ih]

/-- The composite the script actually runs — `re.search` of an escaped
query — is plain substring containment of the query. -/
theorem strContainsRe_reEscape (s q : List Char) :
    strContainsRe s (reEscape q) = containsSub q s := by
  rw [strContainsRe, parsePieces_reEscape]
  exact searchFrom_litPieces q s

/-- The width-normalization loop written as filter-then-truncate. -/
theorem extractRows_eq (headers : List (List Char)) (raw : List (List (List Char))) :
    extractRows headers raw =
      (raw.filter (fun cols => headers.length ≤ cols.length)).map
        (fun cols => cols.take headers.length) := by
  induction raw with
  | nil => rfl
  | cons a t ih =>
    simp only [extractRows] at ih ⊢
    by_cases h : headers.length ≤ a.length <;>
      simp [List.filterMap_cons, List.filter_cons, h, ih]

/-- C1: every row stored by the extraction loop has exactly as many cells
as there are headers; a raw row with fewer cells is dropped entirely, and
one with more is truncated to the first `headers.length` cells. -/
theorem C1_row_width (headers : List (List Char)) (raw : List (List (List Char))) :
    (∀ r ∈ extractRows headers raw, r.length = headers.length) ∧
    extractRows headers raw =
      (raw.filter (fun cols => headers.length ≤ cols.length)).map
        (fun cols => cols.take headers.length) := by
  refine ⟨?_, extractRows_eq headers raw⟩
  intro r hr
  rw [extractRows_eq] at hr
  rcases List.mem_map.mp hr with ⟨cols, hmem, rfl⟩
  have hle : headers.length ≤ cols.length := by
    have h := (List.mem_filter.mp hmem).2
    simpa using h
  simp [List.length_take, Nat.min_eq_left hle]

/-- Closed instance of C1 on a concrete table: a 3-cell row against one
header is truncated to one cell. -/
theorem C1_row_width_witness :
    ([['a']] : List (List Char)).length = ([['H']] : List (List Char)).length :=
  (C1_row_width [['H']] [[['a'], ['x'], ['y']], [[]]]).1 [['a']] (by decide)

/-- C2: the match set is exactly the rows, kept in original order, whose
first-column value lowercased contains the lowercased query as a plain
substring; a query equal to the exact case-correct full cell value matches,
and so does any case permutation of any substring of the cell. -/
theorem C2_search_matches (df : List (List (List Char))) (q : List Char) :
    searchFilter df q =
      df.filter (fun row => containsSub (pyLower q) (pyLower (row.headD []))) ∧
    List.Sublist (searchFilter df q) df ∧
    (∀ row ∈ df, row.headD [] = q → row ∈ searchFilter df q) ∧
    (∀ row ∈ df, ∀ s, SubstrOf s (row.headD []) → pyLower q = pyLower s →
      row ∈ searchFilter df q) := by
  have key : ∀ row : List (List Char), rowMatches q row =
      containsSub (pyLower q) (pyLower (row.headD [])) := fun row =>
    strContainsRe_reEscape (pyLower (row.headD [])) (pyLower q)
  refine ⟨?_, List.filter_sublist df, ?_, ?_⟩
  · exact List.filter_congr (fun row _ => key row)
  · intro row hmem hq
    refine List.mem_filter.mpr ⟨hmem, ?_⟩
    rw [key row, hq]
    exact (containsSub_iff _ _).mpr (substrOf_self _)
  · intro row hmem s hsub hql
    refine List.mem_filter.mpr ⟨hmem, ?_⟩
    rw [key row, hql]
    exact (containsSub_iff _ _).mpr (substrOf_map Char.toLower hsub)

/-- Closed instance of C2: the query "aB" — a case permutation of the full
first-cell value "Ab" — matches that row. -/
theorem C2_search_matches_witness :
    [['A', 'b'], ['1']] ∈
      searchFilter [[['A', 'b'], ['1']], [['z'], ['2']]] ['a', 'B'] :=
  (C2_search_matches [[['A', 'b'], ['1']], [['z'], ['2']]] ['a', 'B']).2.2.2
    [['A', 'b'], ['1']] (by decide) ['A', 'b'] ⟨[], [], rfl⟩ (by decide)

/-- C3: a table with no rows at all, or whose first row has no header
cells, makes loading fail with a non-zero process exit status (the caught
IndexError path speaks a diagnostic and calls `exit(1)`; the empty-header
path dies at `df.columns[0]` with an uncaught IndexError and a traceback,
interpreter status 1). -/
theorem C3_fatal_headers (trs : List (List HtmlCell))
    (h : trs = [] ∨ ∃ tr0 rest, trs = tr0 :: rest ∧ headerCells tr0 = []) :
    ∃ e, loadTable trs = Except.error e ∧ e.exitCode ≠ 0 := by
  rcases h with rfl | ⟨tr0, rest, rfl, hh⟩
  · exact ⟨LoadFailure.emptyTable, rfl, by decide⟩
  · refine ⟨LoadFailure.noColumns, ?_, by decide⟩
    simp [loadTable, hh]

/-- Closed instance of C3: the empty table aborts with non-zero status. -/
theorem C3_fatal_headers_witness :
    ∃ e, loadTable [] = Except.error e ∧ e.exitCode ≠ 0 :=
  C3_fatal_headers [] (Or.inl rfl)

/-- C4 counterexample: a 304 response has a status outside the 2xx range,
yet the fetch block does not exit — `raise_for_status` only raises for
4xx/5xx, so the program proceeds with the body. -/
theorem C4_fetch_counterexample :
    fetchStep (FetchResult.response 304 []) = FetchOutcome.proceed [] ∧
    ¬(200 ≤ 304 ∧ 304 < 300) := by
  exact ⟨rfl, by decide⟩

/-- C4 as amended: every connection error or timeout, and every response
with a 4xx or 5xx status (400 ≤ status < 600), terminates the single
fetch attempt with exit status 1 after a spoken diagnostic, with no retry;
a response with any other status (2xx, but also 1xx and 3xx such as 304)
proceeds. -/
theorem C4_fetch_amended (r : FetchResult) :
    (∀ e, r = FetchResult.requestError e → fetchStep r = FetchOutcome.exitWith 1) ∧
    (∀ st body, r = FetchResult.response st body → 400 ≤ st → st < 600 →
      fetchStep r = FetchOutcome.exitWith 1) ∧
    (∀ st body, r = FetchResult.response st body → st < 400 ∨ 600 ≤ st →
      fetchStep r = FetchOutcome.proceed body) := by
  refine ⟨?_, ?_, ?_⟩
  · rintro e rfl; rfl
  · rintro st body rfl h4 h6
    simp [fetchStep, raiseForStatusFails, h4, h6]
  · rintro st body rfl h
    have hb : raiseForStatusFails st = false := by
      simp only [raiseForStatusFails, Bool.and_eq_false_iff, decide_eq_false_iff_not]
      omega
    simp [fetchStep, hb]

/-- Closed instance of amended C4: a 404 response exits with status 1. -/
theorem C4_fetch_amended_witness :
    fetchStep (FetchResult.response 404 ['x']) = FetchOutcome.exitWith 1 :=
  (C4_fetch_amended (FetchResult.response 404 ['x'])).2.1 404 ['x'] rfl
    (by decide) (by decide)

/-- C5: whatever the speech engine does, `speak` returns normally and
prints exactly the marked text — an engine failure never escapes to the
caller and never changes behavior beyond the already-printed line. -/
theorem C5_speak_swallows (sayRun : Except PyErr Unit) (text : List Char) :
    (speak sayRun text).2 = Except.ok () ∧
    (speak sayRun text).1 = [speakMarker ++ text] ∧
    speak sayRun text = speak (Except.ok ()) text := by
  cases sayRun with
  | ok u => cases u; exact ⟨rfl, rfl, rfl⟩
  | error e => exact ⟨rfl, rfl, rfl⟩

/-- Closed instance of C5: a raising engine still yields a normal return. -/
theorem C5_speak_swallows_witness :
    (speak (Except.error ⟨['x']⟩) ['h', 'i']).2 = Except.ok () :=
  (C5_speak_swallows (Except.error ⟨['x']⟩) ['h', 'i']).1

/-- C6: running `re.search` with the `re.escape`d query — exactly what the
filter does — equals plain substring containment of the query characters:
escaped metacharacters carry no pattern syntax. -/
theorem C6_escape_literal (q cell : List Char) :
    strContainsRe cell (reEscape q) = containsSub q cell ∧
    (strContainsRe cell (reEscape q) = true ↔ SubstrOf q cell) := by
  refine ⟨strContainsRe_reEscape cell q, ?_⟩
  rw [strContainsRe_reEscape cell q]
  exact containsSub_iff q cell

/-- Closed instance of C6: the query "a(" is found literally inside
"xa(y" through the escaped-regex path. -/
theorem C6_escape_literal_witness :
    strContainsRe ['x', 'a', '(', 'y'] (reEscape ['a', '(']) = true :=
  (C6_escape_literal ['a', '('] ['x', 'a', '(', 'y']).2.mpr ⟨['x'], ['y'], rfl⟩

/-- C7: one loop iteration terminates the session iff the stripped input
lowercases to exactly "exit", and such an input never reaches the search
branch. -/
theorem C7_exit_sentinel (raw : List Char) :
    (loopStep raw = LoopAction.terminate ↔ pyLower (pyStrip raw) = exitWord) ∧
    (pyLower (pyStrip raw) = exitWord → ∀ q, loopStep raw ≠ LoopAction.search q) := by
  constructor
  · constructor
    · intro h
      by_cases hc : pyLower (pyStrip raw) = exitWord
      · exact hc
      · exfalso
        have hnil : ¬(pyLower ([] : List Char) = exitWord) := by decide
        by_cases he : pyStrip raw = []
        · simp [loopStep, hc, he, hnil] at h
        · simp [loopStep, hc, he] at h
    · intro h; simp [loopStep, h]
  · intro h q; simp [loopStep, h]

/-- Closed instance of C7: "  EXIT " terminates the loop. -/
theorem C7_exit_sentinel_witness :
    loopStep [' ', 'E', 'X', 'I', 'T', ' '] = LoopAction.terminate :=
  (C7_exit_sentinel [' ', 'E', 'X', 'I', 'T', ' ']).1.mpr (by decide)

/-- C8: an input that strips to the empty string makes the iteration
re-prompt: no search is run and the loop does not terminate. -/
theorem C8_empty_reprompts (raw : List Char) (h : pyStrip raw = []) :
    loopStep raw = LoopAction.reprompt := by
  have hnil : ¬(pyLower ([] : List Char) = exitWord) := by decide
  simp [loopStep, h, hnil]

/-- Closed instance of C8: whitespace-only input re-prompts. -/
theorem C8_empty_reprompts_witness :
    loopStep [' ', '\t'] = LoopAction.reprompt :=
  C8_empty_reprompts [' ', '\t'] (by decide)

/-- C9: across any sequence of queries the base table is exactly the table
loaded at start, and every query's result is the filter of that original
table — a fresh derived view each time, never a mutation. -/
theorem C9_table_immutable (table : List (List (List Char))) (qs : List (List Char)) :
    (processQueries table qs).1 = table ∧
    (processQueries table qs).2 = qs.map (searchFilter table) := by
  induction qs generalizing table with
  | nil => exact ⟨rfl, rfl⟩
  | cons q qs ih =>
    simp [processQueries, processQuery, (ih table).1, (ih table).2]

/-- Closed instance of C9: after one query the table is unchanged. -/
theorem C9_table_immutable_witness :
    (processQueries [[['a']]] [['a']]).1 = [[['a']]] :=
  (C9_table_immutable [[['a']]] [['a']]).1

/-- C10: a raising CSV write means the Excel write is never attempted —
both writes sit in one `try` scope — and the failure is reported as a
warning while the program continues; an Excel-only failure is likewise a
warning and the program continues. -/
theorem C10_export_scope (e : PyErr) (excelAct : Except PyErr Unit) :
    ExportEvent.excelWrite ∉ (exportBlock (Except.error e) excelAct).1 ∧
    ExportEvent.warnMsg ∈ (exportBlock (Except.error e) excelAct).1 ∧
    (exportBlock (Except.error e) excelAct).2 = true ∧
    ∀ e2 : PyErr,
      ExportEvent.warnMsg ∈ (exportBlock (Except.ok ()) (Except.error e2)).1 ∧
      (exportBlock (Except.ok ()) (Except.error e2)).2 = true := by
  refine ⟨?_, ?_, rfl, ?_⟩
  · simp [exportBlock, runTry]
  · simp [exportBlock, runTry]
  · intro e2
    exact ⟨by simp [exportBlock, runTry], rfl⟩

/-- Closed instance of C10: a failed CSV write is reported as a warning. -/
theorem C10_export_scope_witness :
    ExportEvent.warnMsg ∈
      (exportBlock (Except.error ⟨['b']⟩) (Except.ok ())).1 :=
  (C10_export_scope ⟨['b']⟩ (Except.ok ())).2.1

end WebScrap
